import Mathlib

/-!
Verification development for the zinput repository.

The repository has two source files:
  - src/znet/znet.h: passive wire-format data layouts (button bit
    enumeration, controller/motion records, the fixed-size packet).
  - src/zplugin_vcon/vcon.h: the virtual-controller plugin data model
    (five component kinds, per-kind record slices in a DeviceView) and
    the declaration of the merge entry point vcon_update.

The body of vcon_update is not part of the repository (vcon.h only
declares it), so the merge engine is modelled from the specification's
algorithm and failure conditions; the passive structs are embedded
directly from znet.h.
-/

/-! ## znet.h: button bit enumeration (enum ZNet_Button) -/

def ZNet_Button_A : Nat := 1 <<< 0

def ZNet_Button_B : Nat := 1 <<< 1

def ZNet_Button_X : Nat := 1 <<< 2

def ZNet_Button_Y : Nat := 1 <<< 3

def ZNet_Button_Up : Nat := 1 <<< 4

def ZNet_Button_Down : Nat := 1 <<< 5

def ZNet_Button_Left : Nat := 1 <<< 6

def ZNet_Button_Right : Nat := 1 <<< 7

def ZNet_Button_Start : Nat := 1 <<< 8

def ZNet_Button_Select : Nat := 1 <<< 9

def ZNet_Button_L1 : Nat := 1 <<< 10

def ZNet_Button_R1 : Nat := 1 <<< 11

def ZNet_Button_L2 : Nat := 1 <<< 12

def ZNet_Button_R2 : Nat := 1 <<< 13

def ZNet_Button_L3 : Nat := 1 <<< 14

def ZNet_Button_R3 : Nat := 1 <<< 15

def ZNet_Button_L4 : Nat := 1 <<< 16

def ZNet_Button_R4 : Nat := 1 <<< 17

def ZNet_Button_LStick : Nat := 1 <<< 18

def ZNet_Button_RStick : Nat := 1 <<< 19

def ZNet_Button_Home : Nat := 1 <<< 20

def ZNet_Button_Capture : Nat := 1 <<< 21

/-- The 22 enumerators of enum ZNet_Button, in declaration order. -/
def znetButtonValues : List Nat :=
  [ZNet_Button_A, ZNet_Button_B, ZNet_Button_X, ZNet_Button_Y,
   ZNet_Button_Up, ZNet_Button_Down, ZNet_Button_Left, ZNet_Button_Right,
   ZNet_Button_Start, ZNet_Button_Select, ZNet_Button_L1, ZNet_Button_R1,
   ZNet_Button_L2, ZNet_Button_R2, ZNet_Button_L3, ZNet_Button_R3,
   ZNet_Button_L4, ZNet_Button_R4, ZNet_Button_LStick, ZNet_Button_RStick,
   ZNet_Button_Home, ZNet_Button_Capture]

/-- Modelled from the spec: znet.h only declares the enumerators; the
validity notion for a buttons bitmask comes from the spec's invariant
that a buttons value is a bitmask over the 22 named buttons ("unused
bits must be zero"). A valid mask is any union of named button bits. -/
def validButtonMask (m : Nat) : Prop :=
  ∃ bs : List Nat, (∀ b ∈ bs, b ∈ znetButtonValues) ∧ m = bs.foldl Nat.lor 0

/-! ## znet.h: passive record structs.

uint64_t and uint8_t fields are modelled as Nat (no claim exercises
wrap-around arithmetic on them); each float field is modelled by its
32-bit pattern as a Nat, since no claim depends on float arithmetic,
only on the struct's shape. -/

structure ZNet_Controller where
  buttons : Nat
  left_stick_x : Nat
  left_stick_y : Nat
  right_stick_x : Nat
  right_stick_y : Nat
  l1_analog : Nat
  r1_analog : Nat
  l2_analog : Nat
  r2_analog : Nat
deriving DecidableEq

structure ZNet_Motion where
  gyro_pitch : Nat
  gyro_roll : Nat
  gyro_yaw : Nat
  accel_x : Nat
  accel_y : Nat
  accel_z : Nat
deriving DecidableEq

structure ZNet_Device where
  controller : ZNet_Controller
  motion : ZNet_Motion
deriving DecidableEq

/-- struct ZNet_Packet: 16 name bytes, a uint8_t device count, and four
fixed device slots (devices[4]). -/
structure ZNet_Packet where
  name : Fin 16 → Nat
  num_devices : Nat
  devices : Fin 4 → ZNet_Device

/-- Modelled from the spec: the repository contains no packet-producing
code, only the struct layout. Per the spec's invariant, a packet is well
formed when every counted device refers to one of the four declared
slots of the devices[4] array. -/
def ZNet_Packet.wellFormed (p : ZNet_Packet) : Prop :=
  ∀ i : Nat, i < p.num_devices → i < 4

/-! ## vcon.h: component kinds and DeviceView -/

/-- The five component kinds of the VCON_COMPONENTS list, in order:
controller, motion, analog, button, touch_pad. -/
inductive ComponentKind where
  | controller
  | motion
  | analog
  | button
  | touchPad
deriving DecidableEq

/-- All five kinds, in the order of the VCON_COMPONENTS list. -/
def ComponentKind.all : List ComponentKind :=
  [ComponentKind.controller, ComponentKind.motion, ComponentKind.analog,
   ComponentKind.button, ComponentKind.touchPad]

/-- Bit position of each kind in the update mask, following the order
of the VCON_COMPONENTS list. -/
def ComponentKind.bit : ComponentKind → Nat
  | ComponentKind.controller => 0
  | ComponentKind.motion => 1
  | ComponentKind.analog => 2
  | ComponentKind.button => 3
  | ComponentKind.touchPad => 4

/-- The kinds the spec calls singular (Controller, Motion): at most one
logical record per device. -/
def ComponentKind.singular : ComponentKind → Bool
  | ComponentKind.controller => true
  | ComponentKind.motion => true
  | _ => false

/-- A record stored in a component Slice, as its bytes; a Slice's
untyped memory is a sequence of such records. -/
abbrev VRecord := List Nat

/-- struct DeviceView: one record sequence (Slice) per component kind,
fields in the order generated by VCON_COMPONENTS. -/
@[ext] structure DeviceView where
  controllers : List VRecord
  motions : List VRecord
  analogs : List VRecord
  buttons : List VRecord
  touch_pads : List VRecord
deriving DecidableEq

/-- Typed access to the slice of a given kind. -/
def DeviceView.get : DeviceView → ComponentKind → List VRecord
  | v, ComponentKind.controller => v.controllers
  | v, ComponentKind.motion => v.motions
  | v, ComponentKind.analog => v.analogs
  | v, ComponentKind.button => v.buttons
  | v, ComponentKind.touchPad => v.touch_pads

/-- Replace the slice of a given kind. -/
def DeviceView.set : DeviceView → ComponentKind → List VRecord → DeviceView
  | v, ComponentKind.controller, r => ⟨r, v.motions, v.analogs, v.buttons, v.touch_pads⟩
  | v, ComponentKind.motion, r => ⟨v.controllers, r, v.analogs, v.buttons, v.touch_pads⟩
  | v, ComponentKind.analog, r => ⟨v.controllers, v.motions, r, v.buttons, v.touch_pads⟩
  | v, ComponentKind.button, r => ⟨v.controllers, v.motions, v.analogs, r, v.touch_pads⟩
  | v, ComponentKind.touchPad, r => ⟨v.controllers, v.motions, v.analogs, v.buttons, r⟩

/-- A DeviceView with every slice empty. -/
def emptyView : DeviceView := ⟨[], [], [], [], []⟩

/-! ## The merge engine (vcon_update), modelled from the spec -/

/-- The spec's failure taxonomy for the merge engine. -/
inductive VconError where
  | invalidInput
  | unsupportedKind
deriving DecidableEq

/-- Scan the input views in order and return the slice of the first
device whose sequence for this kind is non-empty (first-writer-wins). -/
def findRecords : List DeviceView → ComponentKind → Option (List VRecord)
  | [], _ => none
  | v :: rest, k => if v.get k = [] then findRecords rest k else some (v.get k)

/-- Some input device supplies more than one record for a singular kind
(ambiguous within one device). -/
def hasAmbiguousSingular (input : List DeviceView) : Bool :=
  input.any fun v =>
    ComponentKind.all.any fun k => k.singular && decide (1 < (v.get k).length)

/-- Process one component kind: if its bit is set in the mask and some
device supplies it, overwrite the output slice with the winning device's
records; otherwise leave the output slice untouched. -/
def mergeKind (u : Nat) (input : List DeviceView) (out : DeviceView)
    (k : ComponentKind) : DeviceView :=
  if Nat.testBit u k.bit then
    match findRecords input k with
    | some recs => out.set k recs
    | none => out
  else out

/-- Process every component kind, each independently. -/
def mergeAll (u : Nat) (input : List DeviceView) (out : DeviceView) : DeviceView :=
  ComponentKind.all.foldl (mergeKind u input) out

/-- Modelled from the spec: the body of vcon_update is not in the
repository (vcon.h only declares it). The model follows the spec's
algorithm and failure conditions: the uint8_t mask is reduced mod 256;
empty input and within-device singular ambiguity are the InvalidInput
conditions, a mask bit outside the five kinds (bit 5, 6 or 7) is the
UnsupportedKind condition; per the spec, empty input always yields
InvalidInput, so the InvalidInput conditions are checked first. On
failure the output view is returned untouched (all-or-nothing); on
success every masked kind with a supplier is overwritten from the first
supplying device and everything else is carried over. The boolean
return of the C signature is refined to an error code to express the
spec's taxonomy. -/
def vcon_update (updated : Nat) (input_devices : List DeviceView)
    (output_device : DeviceView) : Option VconError × DeviceView :=
  if input_devices.length = 0 then
    (some VconError.invalidInput, output_device)
  else if hasAmbiguousSingular input_devices then
    (some VconError.invalidInput, output_device)
  else if 32 ≤ updated % 256 then
    (some VconError.unsupportedKind, output_device)
  else
    (none, mergeAll (updated % 256) input_devices output_device)

/-! ## Helper lemmas about DeviceView access and the merge engine -/

theorem mem_kind_all (k : ComponentKind) : k ∈ ComponentKind.all := by
  cases k <;> simp [ComponentKind.all]

theorem get_set_same (v : DeviceView) (k : ComponentKind) (r : List VRecord) :
    (v.set k r).get k = r := by
  cases k <;> rfl

theorem get_set_ne (v : DeviceView) (k k' : ComponentKind) (r : List VRecord)
    (h : k ≠ k') : (v.set k' r).get k = v.get k := by
  cases k <;> cases k' <;> simp_all [DeviceView.set, DeviceView.get]

theorem DeviceView.ext_get (v w : DeviceView) (h : ∀ k, v.get k = w.get k) :
    v = w :=
  DeviceView.ext (h ComponentKind.controller) (h ComponentKind.motion)
    (h ComponentKind.analog) (h ComponentKind.button) (h ComponentKind.touchPad)

theorem mergeKind_get_ne (u : Nat) (input : List DeviceView) (out : DeviceView)
    (k k' : ComponentKind) (h : k ≠ k') :
    (mergeKind u input out k').get k = out.get k := by
  unfold mergeKind
  split
  · split
    · exact get_set_ne out k k' _ h
    · rfl
  · rfl

theorem mergeKind_get_same (u : Nat) (input : List DeviceView) (out : DeviceView)
    (k : ComponentKind) :
    (mergeKind u input out k).get k =
      if Nat.testBit u k.bit then (findRecords input k).getD (out.get k)
      else out.get k := by
  unfold mergeKind
  split
  · cases hfr : findRecords input k <;> simp [hfr, get_set_same]
  · rfl

/-- Per-kind characterization of the merged view: a masked kind with a
supplier takes the first supplier's records, everything else is carried
over from the prior output. -/
theorem mergeAll_get (u : Nat) (input : List DeviceView) (out : DeviceView)
    (k : ComponentKind) :
    (mergeAll u input out).get k =
      if Nat.testBit u k.bit then (findRecords input k).getD (out.get k)
      else out.get k := by
  cases k <;>
    simp [mergeAll, ComponentKind.all, mergeKind_get_ne, mergeKind_get_same]

theorem findRecords_eq_none_iff (input : List DeviceView) (k : ComponentKind) :
    findRecords input k = none ↔ ∀ v ∈ input, v.get k = [] := by
  induction input with
  | nil => simp [findRecords]
  | cons v rest ih =>
    by_cases h : v.get k = [] <;> simp [findRecords, h, ih]

/-- First-match characterization of the scan: if every device before
index i supplies nothing for kind k and device i supplies something,
the scan returns device i's records. -/
theorem findRecords_eq_of_first (input : List DeviceView) (k : ComponentKind)
    (i : Nat) (hi : i < input.length)
    (hne : (input.get ⟨i, hi⟩).get k ≠ [])
    (hmin : ∀ m (hm : m < i), (input.get ⟨m, Nat.lt_trans hm hi⟩).get k = []) :
    findRecords input k = some ((input.get ⟨i, hi⟩).get k) := by
  induction input generalizing i with
  | nil => exact absurd hi (Nat.not_lt_zero i)
  | cons v rest ih =>
    cases i with
    | zero =>
      simp only [List.get] at hne ⊢
      simp [findRecords, hne]
    | succ j =>
      have hv : v.get k = [] := hmin 0 (Nat.succ_pos j)
      simp only [List.get] at hne ⊢
      rw [findRecords, if_pos hv]
      exact ih j (Nat.lt_of_succ_lt_succ hi) hne
        (fun m hm => hmin (m + 1) (Nat.succ_lt_succ hm))

theorem hasAmbiguousSingular_iff (input : List DeviceView) :
    hasAmbiguousSingular input = true ↔
      ∃ v ∈ input, ∃ k : ComponentKind,
        k.singular = true ∧ 1 < (v.get k).length := by
  simp only [hasAmbiguousSingular, List.any_eq_true, Bool.and_eq_true,
    decide_eq_true_eq]
  constructor
  · rintro ⟨v, hv, k, _, hk⟩
    exact ⟨v, hv, k, hk⟩
  · rintro ⟨v, hv, k, hk⟩
    exact ⟨v, hv, k, mem_kind_all k, hk⟩

/-- Every kind's bit position is below 8, so reducing the mask mod 256
(the uint8_t carrier) does not change it. -/
theorem testBit_mod256_kind (updated : Nat) (k : ComponentKind) :
    Nat.testBit (updated % 256) k.bit = Nat.testBit updated k.bit := by
  have h : updated % 256 = updated % 2 ^ 8 := rfl
  rw [h, Nat.testBit_mod_two_pow]
  cases k <;> simp [ComponentKind.bit]

/-! ## Claims about the merge engine -/

/-- C1: First-writer-wins: for a mask selecting a singular kind k and an
input sequence in which at least two devices supply non-empty data for
k, a successful merge's output for k equals the records of the device at
the lowest index that supplies non-empty data for k, regardless of the
content of every later device. -/
theorem first_writer_wins (updated : Nat) (input : List DeviceView)
    (out out' : DeviceView) (k : ComponentKind) (hsing : k.singular = true)
    (hmask : Nat.testBit updated k.bit = true)
    (i : Nat) (hi : i < input.length)
    (hne : (input.get ⟨i, hi⟩).get k ≠ [])
    (hmin : ∀ m (hm : m < i), (input.get ⟨m, Nat.lt_trans hm hi⟩).get k = [])
    (j : Nat) (hj : j < input.length) (hij : i < j)
    (hjne : (input.get ⟨j, hj⟩).get k ≠ [])
    (hsucc : vcon_update updated input out = (none, out')) :
    out'.get k = (input.get ⟨i, hi⟩).get k := by
  unfold vcon_update at hsucc
  split at hsucc
  · simp at hsucc
  · split at hsucc
    · simp at hsucc
    · split at hsucc
      · simp at hsucc
      · injection hsucc with h1 h2
        rw [← h2, mergeAll_get, testBit_mod256_kind, if_pos hmask,
          findRecords_eq_of_first input k i hi hne hmin]
        rfl

theorem first_writer_wins_witness :
    (DeviceView.mk [[1]] [] [] [] []).get ComponentKind.controller =
      (([DeviceView.mk [[1]] [] [] [] [],
         DeviceView.mk [[2]] [] [] [] []] : List DeviceView).get
        ⟨0, by decide⟩).get ComponentKind.controller :=
  first_writer_wins 1
    [DeviceView.mk [[1]] [] [] [] [], DeviceView.mk [[2]] [] [] [] []]
    emptyView (DeviceView.mk [[1]] [] [] [] []) ComponentKind.controller
    (by decide) (by decide) 0 (by decide) (by decide)
    (fun m hm => absurd hm (Nat.not_lt_zero m))
    1 (by decide) (by decide) (by decide) (by decide)

/-- C2 counterexample: with input_views non-empty, a mask whose bit 0
selects the controller kind that exactly one device supplies, the merge
does not succeed, because the same mask also has bit 5 set (mask 33):
the model rejects it with UnsupportedKind instead of copying. -/
theorem copy_single_supplier_cex :
    Nat.testBit 33 ComponentKind.controller.bit = true ∧
    ([DeviceView.mk [[7]] [] [] [] []] : List DeviceView) ≠ [] ∧
    (DeviceView.mk [[7]] [] [] [] []).get ComponentKind.controller ≠ [] ∧
    (vcon_update 33 [DeviceView.mk [[7]] [] [] [] []] emptyView).1 ≠ none := by
  decide

/-- C2 (amended): for non-empty input_views, a mask with no bits outside
the five kinds that selects a kind k supplied by exactly one device, and
no device ambiguous on a singular kind, the merge succeeds and copies
that device's records for k into the output unchanged. -/
theorem copy_single_supplier (updated : Nat) (input : List DeviceView)
    (out : DeviceView) (k : ComponentKind)
    (hmask : Nat.testBit updated k.bit = true)
    (hlow : updated % 256 < 32)
    (hamb : hasAmbiguousSingular input = false)
    (i : Nat) (hi : i < input.length)
    (hne : (input.get ⟨i, hi⟩).get k ≠ [])
    (honly : ∀ m (hm : m < input.length), m ≠ i → (input.get ⟨m, hm⟩).get k = []) :
    (vcon_update updated input out).1 = none ∧
      ((vcon_update updated input out).2).get k = (input.get ⟨i, hi⟩).get k := by
  have hlen : ¬ input.length = 0 := by omega
  have hnot32 : ¬ 32 ≤ updated % 256 := by omega
  have hambP : ¬ hasAmbiguousSingular input = true := by simp [hamb]
  simp only [vcon_update, if_neg hlen, if_neg hambP, if_neg hnot32]
  refine ⟨trivial, ?_⟩
  show (mergeAll (updated % 256) input out).get k = (input.get ⟨i, hi⟩).get k
  rw [mergeAll_get, testBit_mod256_kind, if_pos hmask,
    findRecords_eq_of_first input k i hi hne
      (fun m hm => honly m (Nat.lt_trans hm hi) (Nat.ne_of_lt hm))]
  rfl

theorem copy_single_supplier_witness :
    (vcon_update 1 [DeviceView.mk [[9]] [] [] [] []] emptyView).1 = none ∧
      ((vcon_update 1 [DeviceView.mk [[9]] [] [] [] []] emptyView).2).get
        ComponentKind.controller =
        (([DeviceView.mk [[9]] [] [] [] []] : List DeviceView).get
          ⟨0, by decide⟩).get ComponentKind.controller :=
  copy_single_supplier 1 [DeviceView.mk [[9]] [] [] [] []] emptyView
    ComponentKind.controller (by decide) (by decide) (by decide)
    0 (by decide) (by decide)
    (fun m hm hmne => absurd (Nat.lt_one_iff.mp hm) hmne)

/-- C3: Carry-over: on a successful merge, the output's stored slice for
a kind k is unchanged whenever k's bit is not set in the mask, and also
whenever no input device supplies a non-empty sequence for k; the engine
never synthesizes a default value for k. -/
theorem carry_over (updated : Nat) (input : List DeviceView) (out : DeviceView)
    (k : ComponentKind)
    (hsucc : (vcon_update updated input out).1 = none)
    (hcase : Nat.testBit updated k.bit = false ∨ ∀ v ∈ input, v.get k = []) :
    ((vcon_update updated input out).2).get k = out.get k := by
  by_cases h1 : input.length = 0
  · simp [vcon_update, h1] at hsucc
  by_cases h2 : hasAmbiguousSingular input = true
  · simp [vcon_update, h1, h2] at hsucc
  by_cases h3 : 32 ≤ updated % 256
  · simp [vcon_update, h1, h2, h3] at hsucc
  simp only [vcon_update, if_neg h1, if_neg h2, if_neg h3]
  show (mergeAll (updated % 256) input out).get k = out.get k
  rw [mergeAll_get, testBit_mod256_kind]
  rcases hcase with hbit | hall
  · simp [hbit]
  · rw [(findRecords_eq_none_iff input k).mpr hall]
    simp

theorem carry_over_witness :
    ((vcon_update 1 [emptyView] (DeviceView.mk [] [[5]] [] [] [])).2).get
      ComponentKind.motion =
      (DeviceView.mk [] [[5]] [] [] []).get ComponentKind.motion :=
  carry_over 1 [emptyView] (DeviceView.mk [] [[5]] [] [] [])
    ComponentKind.motion (by decide) (Or.inl (by decide))

/-- C4: InvalidInput iff: the merge fails with InvalidInput exactly when
the input sequence is empty or some single input device supplies more
than one record for a singular kind; in particular empty input always
yields InvalidInput and leaves the output untouched. -/
theorem invalid_input_iff (updated : Nat) (input : List DeviceView)
    (out : DeviceView) :
    ((vcon_update updated input out).1 = some VconError.invalidInput ↔
      input = [] ∨ ∃ v ∈ input, ∃ k : ComponentKind,
        k.singular = true ∧ 1 < (v.get k).length) ∧
    (input = [] →
      vcon_update updated input out = (some VconError.invalidInput, out)) := by
  constructor
  · by_cases h1 : input.length = 0
    · have he : input = [] := List.length_eq_zero.mp h1
      simp [vcon_update, h1, he]
    · by_cases h2 : hasAmbiguousSingular input = true
      · have hr := (hasAmbiguousSingular_iff input).mp h2
        simp only [vcon_update, if_neg h1, if_pos h2]
        exact ⟨fun _ => Or.inr hr, fun _ => trivial⟩
      · have hne : input ≠ [] := fun he => h1 (by simp [he])
        have hr : ¬ ∃ v ∈ input, ∃ k : ComponentKind,
            k.singular = true ∧ 1 < (v.get k).length :=
          fun hex => h2 ((hasAmbiguousSingular_iff input).mpr hex)
        by_cases h3 : 32 ≤ updated % 256 <;>
          simp [vcon_update, if_neg h1, h2, h3, hne, hr]
  · intro he
    subst he
    rfl

theorem invalid_input_iff_witness :
    vcon_update 0 ([] : List DeviceView) emptyView =
      (some VconError.invalidInput, emptyView) :=
  (invalid_input_iff 0 [] emptyView).2 rfl

/-- C5: Atomicity: whenever the merge fails, the output view is left in
its exact pre-call state (the engine never partially commits). -/
theorem atomic_on_failure (updated : Nat) (input : List DeviceView)
    (out : DeviceView) (e : VconError)
    (hfail : (vcon_update updated input out).1 = some e) :
    (vcon_update updated input out).2 = out := by
  by_cases h1 : input.length = 0
  · simp [vcon_update, h1]
  by_cases h2 : hasAmbiguousSingular input = true
  · simp [vcon_update, h1, h2]
  by_cases h3 : 32 ≤ updated % 256
  · simp [vcon_update, h1, h2, h3]
  simp [vcon_update, h1, h2, h3] at hfail

theorem atomic_on_failure_witness :
    (vcon_update 0 ([] : List DeviceView) emptyView).2 = emptyView :=
  atomic_on_failure 0 [] emptyView VconError.invalidInput rfl

/-- C6 counterexample: mask 32 has bit 5 set, yet with empty input the
merge fails with InvalidInput, not UnsupportedKind (the spec itself
demands that empty input always yields InvalidInput). -/
theorem unsupported_kind_cex :
    Nat.testBit 32 5 = true ∧
    vcon_update 32 ([] : List DeviceView) emptyView =
      (some VconError.invalidInput, emptyView) ∧
    VconError.invalidInput ≠ VconError.unsupportedKind := by
  decide

/-- C6 (amended): for every mask with a bit set at position 5 or above
of the 8-bit mask, if the input sequence is non-empty and no device is
ambiguous on a singular kind, the merge fails with UnsupportedKind. -/
theorem unsupported_kind (updated : Nat) (input : List DeviceView)
    (out : DeviceView)
    (hbit : ∃ i, 5 ≤ i ∧ i < 8 ∧ Nat.testBit updated i = true)
    (hne : input ≠ []) (hamb : hasAmbiguousSingular input = false) :
    (vcon_update updated input out).1 = some VconError.unsupportedKind := by
  obtain ⟨i, h5, h8, htb⟩ := hbit
  have htbm : Nat.testBit (updated % 256) i = true := by
    have hm : updated % 256 = updated % 2 ^ 8 := rfl
    rw [hm, Nat.testBit_mod_two_pow]
    simp [h8, htb]
  have h32 : 32 ≤ updated % 256 := by
    have hge := Nat.testBit_implies_ge htbm
    calc (32 : Nat) = 2 ^ 5 := rfl
    _ ≤ 2 ^ i := Nat.pow_le_pow_right (by omega) h5
    _ ≤ updated % 256 := hge
  have h1 : ¬ input.length = 0 := fun h => hne (List.length_eq_zero.mp h)
  have h2 : ¬ hasAmbiguousSingular input = true := by simp [hamb]
  simp [vcon_update, hne, h1, h2, h32]

theorem unsupported_kind_witness :
    (vcon_update 255 [emptyView] emptyView).1 =
      some VconError.unsupportedKind :=
  unsupported_kind 255 [emptyView] emptyView
    ⟨5, by decide, by decide, by decide⟩ (by decide) (by decide)

theorem mergeAll_idem (u : Nat) (input : List DeviceView) (out : DeviceView) :
    mergeAll u input (mergeAll u input out) = mergeAll u input out := by
  apply DeviceView.ext_get
  intro k
  rw [mergeAll_get]
  by_cases htb : Nat.testBit u k.bit = true
  · rw [if_pos htb]
    cases hfr : findRecords input k with
    | none => rfl
    | some r =>
      rw [mergeAll_get, if_pos htb, hfr]
      rfl
  · rw [if_neg htb]

/-- C7: Idempotence: a second merge call with the identical mask and
inputs, starting from the output produced by the first call, returns
the same flag and leaves the output identical to the first call's
result. -/
theorem merge_idempotent (updated : Nat) (input : List DeviceView)
    (out : DeviceView) :
    vcon_update updated input ((vcon_update updated input out).2) =
      vcon_update updated input out := by
  by_cases h1 : input.length = 0
  · simp [vcon_update, h1]
  by_cases h2 : hasAmbiguousSingular input = true
  · simp [vcon_update, h1, h2]
  by_cases h3 : 32 ≤ updated % 256
  · simp [vcon_update, h1, h2, h3]
  simp [vcon_update, h1, h2, h3, mergeAll_idem]

/-! ## Claims about the znet wire format -/

theorem button_values_lt (b : Nat) (hb : b ∈ znetButtonValues) : b < 2 ^ 22 := by
  fin_cases hb <;> decide

theorem foldl_lor_lt (bs : List Nat) (acc : Nat) (hacc : acc < 2 ^ 22)
    (hbs : ∀ b ∈ bs, b < 2 ^ 22) : bs.foldl Nat.lor acc < 2 ^ 22 := by
  induction bs generalizing acc with
  | nil => exact hacc
  | cons b rest ih =>
    exact ih (Nat.lor acc b)
      (Nat.or_lt_two_pow hacc (hbs b (List.mem_cons_self b rest)))
      (fun b' h' => hbs b' (List.mem_cons_of_mem b h'))

/-- C8: The button enumeration is exactly the 22 named buttons at bit
positions 0 through 21 (in declaration order), and every valid buttons
bitmask (a union of named button bits) has all bits at positions 22 and
above equal to zero. -/
theorem button_bit_enumeration :
    znetButtonValues.length = 22 ∧
    znetButtonValues = (List.range 22).map (fun i => 2 ^ i) ∧
    ∀ m : Nat, validButtonMask m → ∀ i : Nat, 22 ≤ i →
      Nat.testBit m i = false := by
  refine ⟨by decide, by decide, ?_⟩
  rintro m ⟨bs, hbs, rfl⟩ i hi
  have hm : bs.foldl Nat.lor 0 < 2 ^ 22 :=
    foldl_lor_lt bs 0 (by decide) (fun b hb => button_values_lt b (hbs b hb))
  exact Nat.testBit_lt_two_pow
    (Nat.lt_of_lt_of_le hm (Nat.pow_le_pow_right (by omega) hi))

theorem button_bit_enumeration_witness :
    Nat.testBit (Nat.lor ZNet_Button_A ZNet_Button_Home) 22 = false :=
  button_bit_enumeration.2.2 (Nat.lor ZNet_Button_A ZNet_Button_Home)
    ⟨[ZNet_Button_A, ZNet_Button_Home], by decide, by decide⟩ 22 (by decide)

/-- C9: In every well-formed wire packet the num_devices count is at
most 4 (the packet's fixed device slots), even though the uint8_t
carrier admits larger values. -/
theorem num_devices_le_four (p : ZNet_Packet) (h : p.wellFormed) :
    p.num_devices ≤ 4 := by
  by_contra hc
  push_neg at hc
  exact absurd (h 4 hc) (by omega)

def zeroController : ZNet_Controller := ⟨0, 0, 0, 0, 0, 0, 0, 0, 0⟩

def zeroMotion : ZNet_Motion := ⟨0, 0, 0, 0, 0, 0⟩

def zeroDevice : ZNet_Device := ⟨zeroController, zeroMotion⟩

def samplePacket : ZNet_Packet := ⟨fun _ => 0, 2, fun _ => zeroDevice⟩

theorem num_devices_le_four_witness : samplePacket.num_devices ≤ 4 :=
  num_devices_le_four samplePacket
    (fun i hi => Nat.lt_of_lt_of_le hi (by decide))

/-- Little-endian bytes of a w-byte field. -/
def leBytes : Nat → Nat → List Nat
  | 0, _ => []
  | w + 1, v => (v % 256) :: leBytes w (v / 256)

/-- The bytes of a ZNet_Controller in declared field order: the u64
buttons bitmask then the eight u8 analog fields. -/
def encodeController (c : ZNet_Controller) : VRecord :=
  leBytes 8 c.buttons ++
    [c.left_stick_x % 256, c.left_stick_y % 256, c.right_stick_x % 256,
     c.right_stick_y % 256, c.l1_analog % 256, c.r1_analog % 256,
     c.l2_analog % 256, c.r2_analog % 256]

/-- The bytes of a ZNet_Motion in declared field order: six 4-byte f32
patterns. -/
def encodeMotion (m : ZNet_Motion) : VRecord :=
  leBytes 4 m.gyro_pitch ++ leBytes 4 m.gyro_roll ++ leBytes 4 m.gyro_yaw ++
    leBytes 4 m.accel_x ++ leBytes 4 m.accel_y ++ leBytes 4 m.accel_z

/-- The DeviceView carried by one wire-packet device record: one
controller record, one motion record, and nothing for the other three
kinds. -/
def ZNet_Device.toView (d : ZNet_Device) : DeviceView :=
  ⟨[encodeController d.controller], [encodeMotion d.motion], [], [], []⟩

/-- A ZNet_Device assembled from a controller/motion pair. -/
def deviceOfParts (p : ZNet_Controller × ZNet_Motion) : ZNet_Device :=
  ⟨p.1, p.2⟩

/-- C10: Every wire-packet device record carries exactly one Controller
state and one Motion state and nothing else: its DeviceView has exactly
one controller record, exactly one motion record, and empty Analogs,
Buttons and TouchPad slots, and a ZNet_Device is determined by exactly
a controller/motion pair. -/
theorem packet_device_components :
    (∀ d : ZNet_Device,
      (d.toView.get ComponentKind.controller).length = 1 ∧
      (d.toView.get ComponentKind.motion).length = 1 ∧
      d.toView.get ComponentKind.analog = [] ∧
      d.toView.get ComponentKind.button = [] ∧
      d.toView.get ComponentKind.touchPad = []) ∧
    Function.Bijective deviceOfParts := by
  refine ⟨fun d => ⟨rfl, rfl, rfl, rfl, rfl⟩, ?_, ?_⟩
  · rintro ⟨c1, m1⟩ ⟨c2, m2⟩ h
    injection h with h1 h2
    subst h1
    subst h2
    rfl
  · exact fun d => ⟨(d.controller, d.motion), rfl⟩

theorem packet_device_components_witness :
    (ZNet_Device.toView zeroDevice).get ComponentKind.analog = [] :=
  (packet_device_components.1 zeroDevice).2.2.1
